import Mathlib

/-!
Shallow embedding of `mojang-api` (src/lib.rs): the server-hash core
(`server_hash`, `hexdigest`), the SHA-1 primitive it consumes, and the
thin HTTP/JSON request layer (`server_auth`, `client_auth`).

Bytes are modelled as `Nat` with the bound `< 256` carried as hypotheses
where a theorem needs it; 32-bit words are `Nat` reduced modulo `2^32`.
-/

/-- `2^32`, the modulus for 32-bit word arithmetic inside SHA-1. -/
def w32 : Nat := 4294967296

/-- Left rotation of a 32-bit word by `k` bits. -/
def rotl (k n : Nat) : Nat := ((n <<< k) ||| (n >>> (32 - k))) % w32

/-- Big-endian bytes of a 32-bit word. -/
def u32be (n : Nat) : List Nat :=
  [(n >>> 24) % 256, (n >>> 16) % 256, (n >>> 8) % 256, n % 256]

/-- Big-endian bytes of a 64-bit word (the SHA-1 length field). -/
def u64be (n : Nat) : List Nat :=
  [(n >>> 56) % 256, (n >>> 48) % 256, (n >>> 40) % 256, (n >>> 32) % 256,
   (n >>> 24) % 256, (n >>> 16) % 256, (n >>> 8) % 256, n % 256]

/-- Group a byte list into big-endian 32-bit words (four bytes per word). -/
def toWords : List Nat → List Nat
  | a :: b :: c :: d :: rest =>
      (a * 16777216 + b * 65536 + c * 256 + d) :: toWords rest
  | _ => []

/-- SHA-1 message padding: append `0x80`, zero bytes to reach 56 mod 64,
then the bit length as a 64-bit big-endian integer. -/
def padMessage (msg : List Nat) : List Nat :=
  let L := msg.length
  let z := (119 - L % 64) % 64
  msg ++ (128 :: List.replicate z 0) ++ u64be (8 * L)

/-- Message-schedule extension: given the reversed word list built so far,
prepend `rotl 1 (w16 xor w14 xor w8 xor w3)` `fuel` times, then un-reverse. -/
def extendWords : Nat → List Nat → List Nat
  | 0, acc => acc.reverse
  | fuel + 1, acc =>
      extendWords fuel
        ((rotl 1 ((acc.getD 2 0) ^^^ (acc.getD 7 0) ^^^ (acc.getD 13 0) ^^^ (acc.getD 15 0))) :: acc)

/-- The SHA-1 round function and constant for round `i`. -/
def sha1FK (i b c d : Nat) : Nat × Nat :=
  if i < 20 then ((b &&& c) ||| ((b ^^^ 4294967295) &&& d), 1518500249)
  else if i < 40 then (b ^^^ c ^^^ d, 1859775393)
  else if i < 60 then ((b &&& c) ||| (b &&& d) ||| (c &&& d), 2400959708)
  else (b ^^^ c ^^^ d, 3395469782)

/-- The 80-round SHA-1 compression loop over the schedule words. -/
def sha1Rounds : Nat → List Nat → Nat × Nat × Nat × Nat × Nat → Nat × Nat × Nat × Nat × Nat
  | _, [], st => st
  | i, word :: ws, (a, b, c, d, e) =>
      let fk := sha1FK i b c d
      let temp := (rotl 5 a + fk.1 + e + fk.2 + word) % w32
      sha1Rounds (i + 1) ws (temp, a, rotl 30 b, c, d)

/-- Process one 64-byte chunk, updating the five-word hash state. -/
def sha1Chunk (h : Nat × Nat × Nat × Nat × Nat) (chunk : List Nat) :
    Nat × Nat × Nat × Nat × Nat :=
  let ws := extendWords 64 (toWords chunk).reverse
  let st := sha1Rounds 0 ws h
  ((h.1 + st.1) % w32, (h.2.1 + st.2.1) % w32, (h.2.2.1 + st.2.2.1) % w32,
   (h.2.2.2.1 + st.2.2.2.1) % w32, (h.2.2.2.2 + st.2.2.2.2) % w32)

/-- Fold `sha1Chunk` over the padded message, 64 bytes at a time. -/
def sha1Chunks : Nat → Nat × Nat × Nat × Nat × Nat → List Nat → Nat × Nat × Nat × Nat × Nat
  | _, h, [] => h
  | 0, h, _ => h
  | fuel + 1, h, data => sha1Chunks fuel (sha1Chunk h (data.take 64)) (data.drop 64)

/-- SHA-1 of a byte list: the 20-byte digest.
Modelled from the spec: the `sha1` crate used by the source is an external
dependency whose code is not under src/; this is standard SHA-1 ("plain
SHA-1", FIPS 180), which the spec and the source's doc tests rely on. -/
def sha1Digest (msg : List Nat) : List Nat :=
  let padded := padMessage msg
  let st := sha1Chunks (padded.length + 1)
    (1732584193, 4023233417, 2562383102, 271733878, 3285377520) padded
  u32be st.1 ++ u32be st.2.1 ++ u32be st.2.2.1 ++ u32be st.2.2.2.1 ++ u32be st.2.2.2.2

/-- The `sha1::Sha1` hasher: its observable state is the byte stream fed
to it so far (`update` appends, `digest` hashes the accumulated stream). -/
structure Sha1 where
  data : List Nat

/-- `Sha1::new()`: the empty hasher. -/
def Sha1.new : Sha1 := ⟨[]⟩

/-- `Sha1::update`: feed more bytes to the hasher. -/
def Sha1.update (h : Sha1) (bytes : List Nat) : Sha1 := ⟨h.data ++ bytes⟩

/-- `hasher.digest().bytes()`: the 20-byte SHA-1 digest of the fed stream. -/
def Sha1.digestBytes (h : Sha1) : List Nat := sha1Digest h.data

/-- Big-endian unsigned value of a byte list
(`BigInt::from_bytes_be` magnitude accumulation). -/
def beVal (l : List Nat) : Nat := l.foldl (fun acc b => acc * 256 + b) 0

/-- `BigInt::from_signed_bytes_be`: two's-complement big-endian
interpretation — negative iff the high bit of the first byte is set. -/
def from_signed_bytes_be (l : List Nat) : Int :=
  (beVal l : Int) - (if 128 ≤ l.headD 0 then (2 : Int) ^ (8 * l.length) else 0)

/-- The lowercase hex digit character for a nibble (`0-9a-f`). -/
def hexDigitChar (d : Nat) : Char :=
  if d < 10 then Char.ofNat (48 + d) else Char.ofNat (87 + d)

/-- Hex digits of `n`, most significant first, no leading zeros
(empty for `n = 0`); `fuel` bounds the recursion depth. -/
def toHexAux : Nat → Nat → List Char
  | 0, _ => []
  | fuel + 1, n =>
      if n = 0 then []
      else toHexAux fuel (n / 16) ++ [hexDigitChar (n % 16)]

/-- Lowercase hex rendering of a natural number (`"0"` for zero). -/
def natToHex (n : Nat) : String :=
  if n = 0 then "0" else String.mk (toHexAux n n)

/-- `format!("{:x}", bigint)` for `num_bigint::BigInt`: a leading `-` for
negative values, then the lowercase hex digits of the magnitude. -/
def bigIntLowerHex (i : Int) : String :=
  if i < 0 then "-" ++ natToHex i.natAbs else natToHex i.toNat

/-- The digest-formatting core applied to raw digest bytes:
`BigInt::from_signed_bytes_be` followed by `format!("{:x}", _)`. -/
def hexdigestBytes (output : List Nat) : String :=
  bigIntLowerHex (from_signed_bytes_be output)

/-- `mojang_api::hexdigest`: Minecraft's signed-hex digest of a hasher. -/
def hexdigest (hasher : Sha1) : String :=
  hexdigestBytes hasher.digestBytes

/-- `[u8; 16]`: a shared secret is exactly 16 bytes, enforced by the type. -/
def SharedSecret := { l : List Nat // l.length = 16 ∧ ∀ b ∈ l, b < 256 }

/-- `mojang_api::server_hash`: SHA-1 over server id, shared secret and
public key (in that order), formatted with `hexdigest`. The `&str`
argument is represented by its UTF-8 bytes. -/
def server_hash (server_id : List Nat) (shared_secret : SharedSecret)
    (pub_key : List Nat) : String :=
  let hasher := Sha1.new
  let hasher := hasher.update server_id
  let hasher := hasher.update shared_secret.val
  let hasher := hasher.update pub_key
  hexdigest hasher

/-- UTF-8 bytes of an ASCII string (agrees with `str::as_bytes` there). -/
def asciiBytes (s : String) : List Nat := s.data.map Char.toNat

/-- Numeric value of a hex digit character (0 for non-digits). -/
def hexCharVal (c : Char) : Nat :=
  if 48 ≤ c.toNat ∧ c.toNat ≤ 57 then c.toNat - 48
  else if 97 ≤ c.toNat ∧ c.toNat ≤ 102 then c.toNat - 87
  else if 65 ≤ c.toNat ∧ c.toNat ≤ 70 then c.toNat - 55
  else 0

/-- Unsigned value of a big-endian hex digit sequence. -/
def parseHexList (l : List Char) : Nat :=
  l.foldl (fun acc c => acc * 16 + hexCharVal c) 0

/-- Modelled from the spec: a signed hexadecimal integer parser (an
optional leading `-`, then hex digits), used to state the round-trip
property of the digest formatting. -/
def parseSignedHex (s : String) : Int :=
  match s.data with
  | [] => 0
  | c :: rest =>
      if c = '-' then -(parseHexList rest : Int) else (parseHexList (c :: rest) : Int)

/-- Lowercase hex digit predicate (`0-9` or `a-f`). -/
def isLowerHexDigit (c : Char) : Bool :=
  (48 ≤ c.toNat && c.toNat ≤ 57) || (97 ≤ c.toNat && c.toNat ≤ 102)

/-- UTF-8 continuation byte (`0x80`–`0xBF`). -/
def isCont (b : Nat) : Bool := 128 ≤ b && b ≤ 191

/-- Validity of a byte sequence as Rust `str` contents (well-formed UTF-8,
no surrogates, no overlong forms). `server_hash` takes `server_id: &str`,
so only byte sequences satisfying this can be passed as the server id. -/
def isUTF8 : List Nat → Bool
  | [] => true
  | b :: rest =>
      if b ≤ 127 then isUTF8 rest
      else if 194 ≤ b && b ≤ 223 then
        match rest with
        | c1 :: rest2 => isCont c1 && isUTF8 rest2
        | [] => false
      else if b = 224 then
        match rest with
        | c1 :: c2 :: rest2 => (160 ≤ c1 && c1 ≤ 191) && isCont c2 && isUTF8 rest2
        | _ => false
      else if 225 ≤ b && b ≤ 236 then
        match rest with
        | c1 :: c2 :: rest2 => isCont c1 && isCont c2 && isUTF8 rest2
        | _ => false
      else if b = 237 then
        match rest with
        | c1 :: c2 :: rest2 => (128 ≤ c1 && c1 ≤ 159) && isCont c2 && isUTF8 rest2
        | _ => false
      else if 238 ≤ b && b ≤ 239 then
        match rest with
        | c1 :: c2 :: rest2 => isCont c1 && isCont c2 && isUTF8 rest2
        | _ => false
      else if b = 240 then
        match rest with
        | c1 :: c2 :: c3 :: rest2 =>
            (144 ≤ c1 && c1 ≤ 191) && isCont c2 && isCont c3 && isUTF8 rest2
        | _ => false
      else if 241 ≤ b && b ≤ 243 then
        match rest with
        | c1 :: c2 :: c3 :: rest2 => isCont c1 && isCont c2 && isCont c3 && isUTF8 rest2
        | _ => false
      else if b = 244 then
        match rest with
        | c1 :: c2 :: c3 :: rest2 =>
            (128 ≤ c1 && c1 ≤ 143) && isCont c2 && isCont c3 && isUTF8 rest2
        | _ => false
      else false

/-- A byte sequence is passable as `server_id` iff it is the byte content
of some `&str`, i.e. valid UTF-8. -/
def serverIdWellTyped (l : List Nat) : Bool := isUTF8 l

/-! ## The HTTP/JSON request layer

The source delegates HTTP transport to `reqwest` and JSON text parsing to
`serde_json`, both external crates: they appear here as explicit
parameters (`send`, `parse`). What the source itself contributes — the
request shapes, the derived `serde` field mapping of the response structs
(with `#[serde(default)]` on `properties`), and the mapping of failures
onto the `Error` enum — is embedded below. -/

/-- JSON values, the interface type of the external JSON decoder. -/
inductive Json where
  | null
  | bool (b : Bool)
  | num (n : Int)
  | str (s : String)
  | arr (elems : List Json)
  | obj (fields : List (String × Json))

/-- The crate's `Error` enum; each variant carries the message of the
underlying external error value. -/
inductive Error where
  | Io (msg : String)
  | Http (msg : String)
  | Utf8 (msg : String)
  | Json (msg : String)
deriving DecidableEq

/-- An outbound HTTP request: method, URL, and JSON payload
(`Json.null` for body-less GET requests). -/
structure HttpRequest where
  method : String
  url : String
  payload : Json

/-- An HTTP response as observed by the source: a status code and a body
(`.text()` already applied; a failing `.text()` is folded into transport
failure, which the source also maps to `Error::Http`). -/
structure HttpResponse where
  status : Nat
  body : String
deriving DecidableEq

/-- The external HTTP client: sends a request, yields a response or a
transport error message. -/
def Transport := HttpRequest → Except String HttpResponse

/-- A UUID: sixteen bytes. -/
structure Uuid where
  bytes : List Nat
deriving DecidableEq

/-- Hex-character test (either case). -/
def isHexChar (c : Char) : Bool :=
  (48 ≤ c.toNat && c.toNat ≤ 57) || (97 ≤ c.toNat && c.toNat ≤ 102) ||
  (65 ≤ c.toNat && c.toNat ≤ 70)

/-- Pair up hex digits into byte values. -/
def hexPairsToBytes : List Char → List Nat
  | c1 :: c2 :: rest => (hexCharVal c1 * 16 + hexCharVal c2) :: hexPairsToBytes rest
  | _ => []

/-- Modelled from the spec: the external `uuid` crate's string
deserialization (the spec's profile `id` field), accepting the hyphenated
`8-4-4-4-12` form and the simple 32-hex-digit form. -/
def parseUuid (s : String) : Except String Uuid :=
  let cs := s.data
  let stripped :=
    if cs.length = 36 && (cs.getD 8 ' ' = '-') && (cs.getD 13 ' ' = '-')
        && (cs.getD 18 ' ' = '-') && (cs.getD 23 ' ' = '-') then
      (cs.take 8) ++ (cs.drop 9).take 4 ++ (cs.drop 14).take 4
        ++ (cs.drop 19).take 4 ++ cs.drop 24
    else cs
  if stripped.length = 32 && stripped.all isHexChar then
    .ok ⟨hexPairsToBytes stripped⟩
  else .error "UUID parsing failed"

/-- A profile property (`name`, base64 `value`, base64 `signature`). -/
structure ProfileProperty where
  name : String
  value : String
  signature : String
deriving DecidableEq

/-- The `hasJoined` response: player UUID, username, and profile
properties (empty when the JSON omits the field, via `#[serde(default)]`). -/
structure ServerAuthResponse where
  id : Uuid
  name : String
  properties : List ProfileProperty
deriving DecidableEq

/-- First value bound to `key` in a JSON object's field list. -/
def jsonLookup (fields : List (String × Json)) (key : String) : Option Json :=
  (fields.find? (fun p => p.1 == key)).map (fun p => p.2)

/-- Derived `serde` deserializer for `ProfileProperty`: three required
string fields. -/
def deserializeProfileProperty : Json → Except String ProfileProperty
  | .obj fields =>
      match jsonLookup fields "name", jsonLookup fields "value",
            jsonLookup fields "signature" with
      | some (.str n), some (.str v), some (.str s) => .ok ⟨n, v, s⟩
      | _, _, _ => .error "invalid ProfileProperty"
  | _ => .error "ProfileProperty: expected object"

/-- Elementwise deserialization of a property array. -/
def deserializeProperties : List Json → Except String (List ProfileProperty)
  | [] => .ok []
  | j :: rest => do
      let p ← deserializeProfileProperty j
      let ps ← deserializeProperties rest
      .ok (p :: ps)

/-- Derived `serde` deserializer for `ServerAuthResponse`: `id` (a UUID
string) and `name` are required; a missing `properties` field defaults to
the empty list (`#[serde(default)]`). -/
def deserializeServerAuthResponse : Json → Except String ServerAuthResponse
  | .obj fields =>
      match jsonLookup fields "id" with
      | some (.str idStr) =>
          match parseUuid idStr with
          | .error e => .error e
          | .ok uid =>
              match jsonLookup fields "name" with
              | some (.str nm) =>
                  match jsonLookup fields "properties" with
                  | none => .ok ⟨uid, nm, []⟩
                  | some (.arr js) =>
                      match deserializeProperties js with
                      | .ok ps => .ok ⟨uid, nm, ps⟩
                      | .error e => .error e
                  | some _ => .error "properties: expected array"
              | _ => .error "missing field name"
      | _ => .error "missing field id"
  | _ => .error "ServerAuthResponse: expected object"

/-- `serde_json::from_str` for `ServerAuthResponse`: JSON text parsing
(external, the `parse` parameter) followed by the derived deserializer. -/
def from_str (parse : String → Except String Json) (s : String) :
    Except String ServerAuthResponse :=
  match parse s with
  | .error e => .error e
  | .ok j => deserializeServerAuthResponse j

/-- The `hasJoined` GET request built by `server_auth`. -/
def serverAuthRequest (server_hash username : String) : HttpRequest :=
  ⟨"GET",
   "https://sessionserver.mojang.com/session/minecraft/hasJoined?username="
     ++ username ++ "&serverId=" ++ server_hash ++ "&unsigned=false",
   Json.null⟩

/-- `mojang_api::server_auth`: send the `hasJoined` request; transport
failure becomes `Error::Http`, a body that fails `from_str` becomes
`Error::Json`, otherwise the deserialized response is returned. -/
def server_auth (parse : String → Except String Json) (send : Transport)
    (server_hash username : String) : Except Error ServerAuthResponse :=
  match send (serverAuthRequest server_hash username) with
  | .error e => .error (.Http e)
  | .ok resp =>
      match from_str parse resp.body with
      | .error e => .error (.Json e)
      | .ok r => .ok r

/-- Canonical hyphenated rendering of a UUID (how `serde` serializes the
`selectedProfile` field). -/
def uuidRender (u : Uuid) : String :=
  let hx := (u.bytes.map (fun b => [hexDigitChar (b / 16), hexDigitChar (b % 16)])).flatten
  String.mk ((hx.take 8) ++ ['-'] ++ ((hx.drop 8).take 4) ++ ['-']
    ++ ((hx.drop 12).take 4) ++ ['-'] ++ ((hx.drop 16).take 4) ++ ['-'] ++ hx.drop 20)

/-- The `join` POST request built by `client_auth`: access token, selected
profile and server hash as a JSON payload. -/
def clientAuthRequest (access_token : String) (uuid : Uuid)
    (server_hash : String) : HttpRequest :=
  ⟨"POST", "https://sessionserver.mojang.com/session/minecraft/join",
   Json.obj [("accessToken", .str access_token),
             ("selectedProfile", .str (uuidRender uuid)),
             ("serverId", .str server_hash)]⟩

/-- `mojang_api::client_auth`: send the `join` request; a transport error
becomes `Error::Http`, and any received response — its status and body
are never examined — yields `Ok(())`. -/
def client_auth (send : Transport) (access_token : String) (uuid : Uuid)
    (server_hash : String) : Except Error Unit :=
  match send (clientAuthRequest access_token uuid server_hash) with
  | .error e => .error (.Http e)
  | .ok _ => .ok ()

/-- The all-zero 16-byte shared secret, as in the source's doc examples. -/
def zeroSecret : SharedSecret := ⟨List.replicate 16 0, by decide⟩

/-! ## Helper lemmas about the hex formatting and parsing -/

lemma foldl_hex_eq (l : List Char) (a : Nat) :
    l.foldl (fun acc c => acc * 16 + hexCharVal c) a = a * 16 ^ l.length + parseHexList l := by
  induction l generalizing a with
  | nil => simp [parseHexList]
  | cons c t ih =>
      simp only [List.foldl_cons, List.length_cons, parseHexList] at ih ⊢
      rw [ih (a * 16 + hexCharVal c), ih (0 * 16 + hexCharVal c)]
      ring

lemma parseHexList_append_digit (l : List Char) (c : Char) :
    parseHexList (l ++ [c]) = parseHexList l * 16 + hexCharVal c := by
  simp only [parseHexList, List.foldl_append, List.foldl_cons, List.foldl_nil]

lemma hexCharVal_hexDigitChar : ∀ d < 16, hexCharVal (hexDigitChar d) = d := by decide

lemma hexDigitChar_ne_minus : ∀ d < 16, hexDigitChar d ≠ '-' := by decide

lemma hexDigitChar_pos_ne_zero : ∀ d < 16, 0 < d → hexDigitChar d ≠ '0' := by decide

lemma isLowerHexDigit_hexDigitChar : ∀ d < 16, isLowerHexDigit (hexDigitChar d) = true := by
  decide

lemma toHexAux_zero (fuel : Nat) : toHexAux fuel 0 = [] := by
  cases fuel <;> simp [toHexAux]

lemma toHexAux_ne_nil (fuel n : Nat) (h0 : n ≠ 0) (hf : fuel ≠ 0) : toHexAux fuel n ≠ [] := by
  cases fuel with
  | zero => exact absurd rfl hf
  | succ f => simp [toHexAux, h0]

lemma parse_toHexAux : ∀ fuel n, n ≤ fuel → parseHexList (toHexAux fuel n) = n := by
  intro fuel
  induction fuel with
  | zero =>
      intro n h
      have : n = 0 := Nat.le_zero.mp h
      subst this
      simp [toHexAux, parseHexList]
  | succ f ih =>
      intro n h
      by_cases h0 : n = 0
      · subst h0; simp [toHexAux, parseHexList]
      · have hdiv : n / 16 ≤ f := by
          have := Nat.div_lt_self (Nat.pos_of_ne_zero h0) (by norm_num : 1 < 16)
          omega
        simp only [toHexAux, if_neg h0]
        rw [parseHexList_append_digit, ih _ hdiv,
          hexCharVal_hexDigitChar _ (Nat.mod_lt _ (by norm_num))]
        omega

lemma toHexAux_mem (fuel : Nat) :
    ∀ n c, c ∈ toHexAux fuel n → ∃ d, d < 16 ∧ c = hexDigitChar d := by
  induction fuel with
  | zero => intro n c hc; simp [toHexAux] at hc
  | succ f ih =>
      intro n c hc
      by_cases h0 : n = 0
      · subst h0; simp [toHexAux] at hc
      · simp only [toHexAux, if_neg h0, List.mem_append, List.mem_singleton] at hc
        rcases hc with hc | hc
        · exact ih _ _ hc
        · exact ⟨n % 16, Nat.mod_lt _ (by norm_num), hc⟩

lemma toHexAux_head (fuel : Nat) :
    ∀ n, 0 < n → n ≤ fuel →
      ∃ d, 0 < d ∧ d < 16 ∧ (toHexAux fuel n).head? = some (hexDigitChar d) := by
  induction fuel with
  | zero => intro n h1 h2; omega
  | succ f ih =>
      intro n h1 h2
      have h0 : n ≠ 0 := by omega
      by_cases hq : n / 16 = 0
      · have hlt : n < 16 := by omega
        refine ⟨n, h1, hlt, ?_⟩
        simp only [toHexAux, if_neg h0, hq, toHexAux_zero, List.nil_append,
          Nat.mod_eq_of_lt hlt, List.head?_cons]
      · have hpos : 0 < n / 16 := Nat.pos_of_ne_zero hq
        have hle : n / 16 ≤ f := by
          have := Nat.div_lt_self h1 (by norm_num : 1 < 16)
          omega
        obtain ⟨d, hd0, hd16, hhead⟩ := ih (n / 16) hpos hle
        refine ⟨d, hd0, hd16, ?_⟩
        simp only [toHexAux, if_neg h0]
        cases hl : toHexAux f (n / 16) with
        | nil => rw [hl] at hhead; simp at hhead
        | cons a t =>
            rw [hl] at hhead
            simp only [List.head?_cons, Option.some.injEq] at hhead
            simp [hhead]

lemma natToHex_pos (n : Nat) (h : n ≠ 0) : natToHex n = String.mk (toHexAux n n) := by
  simp [natToHex, h]

lemma parse_natToHex (n : Nat) : parseHexList (natToHex n).data = n := by
  by_cases h : n = 0
  · subst h; decide
  · rw [natToHex_pos n h]
    exact parse_toHexAux n n le_rfl

lemma data_append (s t : String) : (s ++ t).data = s.data ++ t.data := rfl

lemma parseSignedHex_neg_str (t : String) :
    parseSignedHex ("-" ++ t) = -(parseHexList t.data : Int) := by
  have hd : ("-" ++ t).data = '-' :: t.data := rfl
  simp [parseSignedHex, hd]

lemma parseSignedHex_natToHex (n : Nat) : parseSignedHex (natToHex n) = (n : Int) := by
  by_cases h : n = 0
  · subst h; decide
  · rw [natToHex_pos n h]
    have hne : toHexAux n n ≠ [] := toHexAux_ne_nil n n h h
    cases hl : toHexAux n n with
    | nil => exact absurd hl hne
    | cons a t =>
        have hmem : a ∈ toHexAux n n := by rw [hl]; exact List.mem_cons_self a t
        obtain ⟨d, hd16, ha⟩ := toHexAux_mem n n a hmem
        have hnm : a ≠ '-' := by rw [ha]; exact hexDigitChar_ne_minus d hd16
        have hred : parseSignedHex (String.mk (a :: t)) =
            if a = '-' then -(parseHexList t : Int) else (parseHexList (a :: t) : Int) := rfl
        rw [hred, if_neg hnm, ← hl, parse_toHexAux n n le_rfl]

lemma natToHex_data_ne_nil (m : Nat) : (natToHex m).data ≠ [] := by
  by_cases h : m = 0
  · subst h; decide
  · rw [natToHex_pos m h]
    exact toHexAux_ne_nil m m h h

lemma natToHex_chars (m : Nat) : ∀ c ∈ (natToHex m).data, isLowerHexDigit c = true := by
  by_cases h : m = 0
  · subst h; decide
  · rw [natToHex_pos m h]
    intro c hc
    obtain ⟨d, hd16, hc'⟩ := toHexAux_mem m m c hc
    rw [hc']
    exact isLowerHexDigit_hexDigitChar d hd16

lemma natToHex_head_spec (m : Nat) :
    natToHex m = "0" ∨ (natToHex m).data.head? ≠ some '0' := by
  by_cases h : m = 0
  · left; rw [h]; rfl
  · right
    rw [natToHex_pos m h]
    obtain ⟨d, hd0, hd16, hh⟩ := toHexAux_head m m (Nat.pos_of_ne_zero h) le_rfl
    have hne : hexDigitChar d ≠ '0' := hexDigitChar_pos_ne_zero d hd16 hd0
    have : (String.mk (toHexAux m m)).data = toHexAux m m := rfl
    rw [this, hh]
    simp [hne]

lemma natToHex_head_ne_minus (m : Nat) : (natToHex m).data.head? ≠ some '-' := by
  by_cases h : m = 0
  · subst h; decide
  · rw [natToHex_pos m h]
    obtain ⟨d, _, hd16, hh⟩ := toHexAux_head m m (Nat.pos_of_ne_zero h) le_rfl
    have hne : hexDigitChar d ≠ '-' := hexDigitChar_ne_minus d hd16
    have hdata : (String.mk (toHexAux m m)).data = toHexAux m m := rfl
    rw [hdata, hh]
    simp [hne]

lemma bigIntLowerHex_neg (i : Int) (h : i < 0) :
    bigIntLowerHex i = "-" ++ natToHex i.natAbs := by
  simp [bigIntLowerHex, h]

lemma bigIntLowerHex_nonneg (i : Int) (h : 0 ≤ i) :
    bigIntLowerHex i = natToHex i.toNat := by
  rw [bigIntLowerHex, if_neg (by omega)]

lemma foldl_be_eq (l : List Nat) (a : Nat) :
    l.foldl (fun acc b => acc * 256 + b) a = a * 256 ^ l.length + beVal l := by
  induction l generalizing a with
  | nil => simp [beVal]
  | cons b t ih =>
      simp only [List.foldl_cons, List.length_cons, beVal] at ih ⊢
      rw [ih (a * 256 + b), ih (0 * 256 + b)]
      ring

lemma beVal_cons (b : Nat) (t : List Nat) :
    beVal (b :: t) = b * 256 ^ t.length + beVal t := by
  rw [show beVal (b :: t) = t.foldl (fun acc x => acc * 256 + x) (0 * 256 + b) from rfl,
    foldl_be_eq]
  ring

lemma beVal_lt (l : List Nat) (hb : ∀ b ∈ l, b < 256) : beVal l < 256 ^ l.length := by
  induction l with
  | nil => simp [beVal]
  | cons b t ih =>
      have hb' : ∀ x ∈ t, x < 256 := fun x hx => hb x (List.mem_cons_of_mem _ hx)
      have hbh : b < 256 := hb b (List.mem_cons_self b t)
      have h1 := ih hb'
      rw [beVal_cons, List.length_cons]
      calc b * 256 ^ t.length + beVal t
          < b * 256 ^ t.length + 256 ^ t.length := by omega
        _ = (b + 1) * 256 ^ t.length := by ring
        _ ≤ 256 * 256 ^ t.length := Nat.mul_le_mul_right _ (by omega)
        _ = 256 ^ (t.length + 1) := by rw [pow_succ]; ring

lemma int_pow_256 (n : Nat) : (2 : Int) ^ (8 * n) = 256 ^ n := by
  rw [pow_mul]
  norm_num

lemma fsbb_cons_neg (b0 : Nat) (rest : List Nat) (hs : 128 ≤ b0)
    (hb : ∀ b ∈ b0 :: rest, b < 256) : from_signed_bytes_be (b0 :: rest) < 0 := by
  have hlt : beVal (b0 :: rest) < 256 ^ (b0 :: rest).length := beVal_lt _ hb
  have hlt' : (beVal (b0 :: rest) : Int) < (256 : Int) ^ (b0 :: rest).length := by
    exact_mod_cast hlt
  rw [from_signed_bytes_be, List.headD_cons, if_pos hs, int_pow_256]
  linarith

lemma fsbb_cons_nonneg (b0 : Nat) (rest : List Nat) (hs : b0 < 128) :
    0 ≤ from_signed_bytes_be (b0 :: rest) := by
  rw [from_signed_bytes_be, List.headD_cons, if_neg (by omega), sub_zero]
  exact Int.ofNat_nonneg _

lemma fsbb_nonneg_of_head (d : List Nat) (hs : d.headD 0 < 128) :
    0 ≤ from_signed_bytes_be d := by
  rw [from_signed_bytes_be, if_neg (by omega), sub_zero]
  exact Int.ofNat_nonneg _

/-! ## Claim theorems -/

set_option maxRecDepth 20000

/-- C1: hashing the ASCII inputs "Notch", "jeb_" and "simon" with plain
SHA-1 and formatting with `hexdigest` yields exactly the three wiki.vg
strings, including the negative one and the 39-digit one. -/
theorem hexdigest_test_vectors :
    hexdigest (Sha1.update Sha1.new (asciiBytes "Notch")) =
      "4ed1f46bbe04bc756bcb17c0c7ce3e4632f06a48" ∧
    hexdigest (Sha1.update Sha1.new (asciiBytes "jeb_")) =
      "-7c9d5b0044c130109a5d7b5fb5c317c02b4e28c1" ∧
    hexdigest (Sha1.update Sha1.new (asciiBytes "simon")) =
      "88e16a1019277b15d58faf0541e11910eb756f6" :=
  ⟨by decide, by decide, by decide⟩

/-- C2: for every server id, 16-byte shared secret and public key,
`server_hash` equals the signed-hex formatting of the SHA-1 digest of
`server_id ++ shared_secret ++ pub_key`, fed in exactly that order. -/
theorem server_hash_is_sha1_of_ordered_concat (sid : List Nat)
    (sec : SharedSecret) (pk : List Nat) :
    server_hash sid sec pk = hexdigestBytes (sha1Digest (sid ++ sec.val ++ pk)) := by
  simp [server_hash, hexdigest, Sha1.new, Sha1.update, Sha1.digestBytes,
    List.append_assoc]

/-- C3: for every 20-byte digest, parsing the `hexdigest` output back as a
signed hexadecimal integer recovers the two's-complement big-endian value
of the digest. -/
theorem hexdigest_signed_roundtrip (d : List Nat) (h20 : d.length = 20)
    (hb : ∀ b ∈ d, b < 256) :
    parseSignedHex (hexdigestBytes d) = from_signed_bytes_be d := by
  by_cases hneg : from_signed_bytes_be d < 0
  · rw [hexdigestBytes, bigIntLowerHex_neg _ hneg, parseSignedHex_neg_str, parse_natToHex]
    omega
  · rw [hexdigestBytes, bigIntLowerHex_nonneg _ (by omega), parseSignedHex_natToHex]
    omega

/-- Witness for C3 at the concrete digest `0x80` followed by 19 zeros. -/
theorem hexdigest_signed_roundtrip_witness :
    ((128 :: List.replicate 19 0).length = 20 ∧
      ∀ b ∈ 128 :: List.replicate 19 0, b < 256) ∧
    parseSignedHex (hexdigestBytes (128 :: List.replicate 19 0)) =
      from_signed_bytes_be (128 :: List.replicate 19 0) :=
  ⟨⟨by decide, by decide⟩,
    hexdigest_signed_roundtrip (128 :: List.replicate 19 0) (by decide) (by decide)⟩

/-- C4: the `hexdigest` output starts with `-` exactly when the high bit
of the first digest byte is set. -/
theorem hexdigest_minus_iff_high_bit (b0 : Nat) (rest : List Nat)
    (h20 : (b0 :: rest).length = 20) (hb : ∀ b ∈ b0 :: rest, b < 256) :
    (hexdigestBytes (b0 :: rest)).data.head? = some '-' ↔ 128 ≤ b0 := by
  by_cases hs : 128 ≤ b0
  · simp only [hs, iff_true]
    have hneg := fsbb_cons_neg b0 rest hs hb
    rw [hexdigestBytes, bigIntLowerHex_neg _ hneg, data_append]
    rfl
  · simp only [hs, iff_false]
    have hpos := fsbb_cons_nonneg b0 rest (by omega)
    rw [hexdigestBytes, bigIntLowerHex_nonneg _ hpos]
    exact natToHex_head_ne_minus _

/-- Witness for C4 at the concrete digest `0xFF` followed by 19 zeros. -/
theorem hexdigest_minus_iff_high_bit_witness :
    ((255 :: List.replicate 19 0).length = 20 ∧
      ∀ b ∈ 255 :: List.replicate 19 0, b < 256) ∧
    ((hexdigestBytes (255 :: List.replicate 19 0)).data.head? = some '-' ↔ 128 ≤ 255) :=
  ⟨⟨by decide, by decide⟩,
    hexdigest_minus_iff_high_bit 255 (List.replicate 19 0) (by decide) (by decide)⟩

/-- C5: for every 20-byte digest the output is an optional `-` followed by
a nonempty string of lowercase hex digits with no leading zero (except the
single digit `0`), and the all-zero digest formats to exactly `"0"`. -/
theorem hexdigest_output_charset (d : List Nat) (h20 : d.length = 20)
    (hb : ∀ b ∈ d, b < 256) :
    (∃ t : String,
      (hexdigestBytes d = t ∨ hexdigestBytes d = "-" ++ t) ∧
      t.data ≠ [] ∧
      (∀ c ∈ t.data, isLowerHexDigit c = true) ∧
      (t = "0" ∨ t.data.head? ≠ some '0')) ∧
    hexdigestBytes (List.replicate 20 0) = "0" := by
  constructor
  · by_cases hneg : from_signed_bytes_be d < 0
    · exact ⟨natToHex (from_signed_bytes_be d).natAbs,
        Or.inr (by rw [hexdigestBytes, bigIntLowerHex_neg _ hneg]),
        natToHex_data_ne_nil _, natToHex_chars _, natToHex_head_spec _⟩
    · exact ⟨natToHex (from_signed_bytes_be d).toNat,
        Or.inl (by rw [hexdigestBytes, bigIntLowerHex_nonneg _ (by omega)]),
        natToHex_data_ne_nil _, natToHex_chars _, natToHex_head_spec _⟩
  · decide

/-- Witness for C5 at the all-zero digest. -/
theorem hexdigest_output_charset_witness :
    ((List.replicate 20 0).length = 20 ∧ ∀ b ∈ List.replicate 20 (0 : Nat), b < 256) ∧
    ((∃ t : String,
      (hexdigestBytes (List.replicate 20 0) = t ∨
        hexdigestBytes (List.replicate 20 0) = "-" ++ t) ∧
      t.data ≠ [] ∧
      (∀ c ∈ t.data, isLowerHexDigit c = true) ∧
      (t = "0" ∨ t.data.head? ≠ some '0')) ∧
    hexdigestBytes (List.replicate 20 0) = "0") :=
  ⟨⟨by decide, by decide⟩,
    hexdigest_output_charset (List.replicate 20 0) (by decide) (by decide)⟩

/-- C6: `server_hash` is a pure function of its three inputs — two calls
on the same triple give the same string, in particular on
`("", [0u8; 16], [0x01])`. -/
theorem server_hash_deterministic :
    (∀ (sid : List Nat) (sec : SharedSecret) (pk : List Nat),
      server_hash sid sec pk = server_hash sid sec pk) ∧
    server_hash [] zeroSecret [1] = server_hash [] zeroSecret [1] :=
  ⟨fun _ _ _ => rfl, rfl⟩

/-- C7: `server_hash` always returns a string (no error path), and a
shared secret has length 16 by construction of its type. -/
theorem server_hash_total_and_typed :
    (∀ (sid : List Nat) (sec : SharedSecret) (pk : List Nat),
      ∃ out : String, server_hash sid sec pk = out) ∧
    (∀ sec : SharedSecret, sec.val.length = 16) :=
  ⟨fun sid sec pk => ⟨server_hash sid sec pk, rfl⟩, fun sec => sec.property.1⟩

/-- C8 counterexample: `server_id` is a `&str`, so not every byte sequence
can be passed — the single byte `0xFF` is not valid UTF-8. -/
theorem server_id_not_arbitrary_bytes : serverIdWellTyped [255] = false := by
  decide

/-- C8 (amended): `server_id` is an arbitrary UTF-8 string (the empty one
included) and `pub_key` an arbitrary byte sequence, with no further
structural constraint on either. -/
theorem server_hash_accepts_utf8_id_and_opaque_key :
    serverIdWellTyped [] = true ∧
    ∀ sid : List Nat, serverIdWellTyped sid = true →
      ∀ (sec : SharedSecret) (pk : List Nat),
        ∃ out : String, server_hash sid sec pk = out :=
  ⟨rfl, fun sid _ sec pk => ⟨server_hash sid sec pk, rfl⟩⟩

/-- Witness for C8 at the empty server id and empty public key. -/
theorem server_hash_accepts_utf8_id_and_opaque_key_witness :
    serverIdWellTyped [] = true ∧
    ∃ out : String, server_hash [] zeroSecret [] = out :=
  ⟨by decide, server_hash_accepts_utf8_id_and_opaque_key.2 [] (by decide) zeroSecret []⟩

/-- C9: `client_auth` returns `Ok(())` whenever the transport yields any
response — whatever its status or body — maps a transport failure to
`Error::Http`, and has no other outcome (it never parses the response). -/
theorem client_auth_ignores_response (send : Transport) (tok : String)
    (uuid : Uuid) (sh : String) :
    (∀ resp : HttpResponse,
      send (clientAuthRequest tok uuid sh) = .ok resp →
        client_auth send tok uuid sh = .ok ()) ∧
    (∀ e : String,
      send (clientAuthRequest tok uuid sh) = .error e →
        client_auth send tok uuid sh = .error (Error.Http e)) ∧
    (client_auth send tok uuid sh = .ok () ∨
      ∃ e, client_auth send tok uuid sh = .error (Error.Http e)) := by
  refine ⟨?_, ?_, ?_⟩
  · intro resp h
    simp [client_auth, h]
  · intro e h
    simp [client_auth, h]
  · cases h : send (clientAuthRequest tok uuid sh) with
    | error e => exact Or.inr ⟨e, by simp [client_auth, h]⟩
    | ok r => exact Or.inl (by simp [client_auth, h])

/-- Witness for C9: a transport that answers with status 418 and a
nonempty body still produces `Ok(())`. -/
theorem client_auth_ignores_response_witness :
    client_auth (fun _ => .ok ⟨418, "error page"⟩) "tok" ⟨List.replicate 16 0⟩ "hash" =
      .ok () :=
  (client_auth_ignores_response (fun _ => .ok ⟨418, "error page"⟩) "tok"
    ⟨List.replicate 16 0⟩ "hash").1 ⟨418, "error page"⟩ rfl

/-- C10: deserializing a JSON object without a `properties` field succeeds
with an empty properties vector (given valid `id` and `name`), and — when
the transport delivered a body — `server_auth` yields `Error::Json`
exactly when that body fails to deserialize. -/
theorem server_auth_json_error_iff (parse : String → Except String Json)
    (send : Transport) (sh u : String) :
    (∀ (fields : List (String × Json)) (idStr nm : String) (uid : Uuid),
      jsonLookup fields "id" = some (Json.str idStr) →
      parseUuid idStr = .ok uid →
      jsonLookup fields "name" = some (Json.str nm) →
      jsonLookup fields "properties" = none →
      deserializeServerAuthResponse (Json.obj fields) = .ok ⟨uid, nm, []⟩) ∧
    (∀ resp : HttpResponse,
      send (serverAuthRequest sh u) = .ok resp →
        ∀ e : String,
          (server_auth parse send sh u = .error (Error.Json e) ↔
            from_str parse resp.body = .error e)) := by
  constructor
  · intro fields idStr nm uid hid huid hnm hprops
    simp [deserializeServerAuthResponse, hid, huid, hnm, hprops]
  · intro resp hsend e
    simp only [server_auth, hsend]
    cases h : from_str parse resp.body with
    | error e2 => simp [h]
    | ok r => simp [h]

/-- Witness for C10: a concrete object with only `id` and `name`, and a
concrete transport/parser pair where the body fails to parse. -/
theorem server_auth_json_error_iff_witness :
    deserializeServerAuthResponse
      (Json.obj [("id", Json.str "00000000-0000-0000-0000-000000000000"),
                 ("name", Json.str "test_")]) =
      .ok ⟨⟨List.replicate 16 0⟩, "test_", []⟩ ∧
    server_auth (fun _ => .error "oops") (fun _ => .ok ⟨200, "not json"⟩) "h" "u" =
      .error (Error.Json "oops") :=
  ⟨(server_auth_json_error_iff (fun _ => .error "oops")
      (fun _ => .ok ⟨200, "not json"⟩) "h" "u").1
      [("id", Json.str "00000000-0000-0000-0000-000000000000"),
       ("name", Json.str "test_")]
      "00000000-0000-0000-0000-000000000000" "test_" ⟨List.replicate 16 0⟩
      rfl rfl rfl rfl,
   ((server_auth_json_error_iff (fun _ => .error "oops")
      (fun _ => .ok ⟨200, "not json"⟩) "h" "u").2 ⟨200, "not json"⟩ rfl "oops").mpr rfl⟩
